import Mathlib

set_option autoImplicit false

namespace UptimeChecker

/-! Shallow embedding of otonnesen/uptime-checker (src/main.go).

The registry, handlers and verifier are translated from the Go source.
External collaborators (the gojq query engine, the HTTP transport,
`encoding/json` body decoding, Go channel/ticker runtime objects) are
modelled at the interface the source consumes, as the spec directs. -/

/-- JSON documents, as decoded by `json.Unmarshal` into a dynamic `interface` value.
Numbers are modelled as integers: no claim compares numeric values, only
their (non-)equality with strings matters here. -/
inductive Json where
  | null
  | bool (b : Bool)
  | num (n : Int)
  | str (s : String)
  | arr (elems : List Json)
  | obj (fields : List (String × Json))

/-- Modelled from the spec: a compiled structured query is a document query
evaluator — it takes a parsed JSON value and returns a sequence of result
values (spec section 9; the source stores a `*gojq.Query` and only ever
calls `Run` and reads the first result of the iterator). -/
structure GojqQuery where
  run : Json → List Json

/-- The `JqQuery` struct of the source: an optional compiled query
(`*gojq.Query`, nil modelled as `none`) plus the expected value. -/
structure JqQuery where
  Query : Option GojqQuery
  Expectation : String

/-- The `HealthcheckQuery` struct of the source. `Frequency` is a Go
`time.Duration`, i.e. a count of nanoseconds (int64). -/
structure HealthcheckQuery where
  Id : Int
  Url : String
  Method : String
  ExpectedStatus : Int
  Frequency : Int
  JqQuery : JqQuery

/-- The `HealthcheckResponse` struct of the source. -/
structure HealthcheckResponse where
  Status : Bool
deriving DecidableEq

/-- Outcome of reading (`io.ReadAll`) and JSON-decoding (`json.Unmarshal`)
the probe response body, abstracted to the three cases `checkJSON`
distinguishes: a read error, a body that is not parseable JSON, or the
parsed document. -/
inductive BodyRead where
  | readErr
  | notJson
  | json (doc : Json)

/-- An HTTP response as far as `check` inspects it: the status code and
the body. -/
structure ProbeResponse where
  StatusCode : Int
  Body : BodyRead

/-- Outcome of building and sending the probe request: `fail` covers both
an `http.NewRequest` error and an `httpClient.Do` transport error (the two
early returns of `check`), `ok` carries the response. -/
inductive TransportOutcome where
  | fail
  | ok (resp : ProbeResponse)

/-- The distinct error returns of `checkJSON` in the source. -/
inductive CheckErr where
  | readBody
  | deserialize
  | noResult
  | expectationFailed
deriving DecidableEq

/-- Go dynamic equality `v == expectation` where `v` is a dynamic `interface` value
holding a decoded JSON value and `expectation` is a `string`: true exactly
when `v` holds a string equal to it. -/
def goEqExpectation (v : Json) (e : String) : Bool :=
  match v with
  | Json.str s => s = e
  | _ => false

/-- The `checkJSON` function of the source (lines 365-386), with the query
and expectation passed explicitly (the caller reads them from
`h.JqQuery`): read the body, decode it as JSON, run the query, demand a
first result, and compare it to the expectation.  Returns `some err` where
the source returns a non-nil error, `none` where it returns nil. -/
def checkJSON (q : GojqQuery) (expectation : String) (body : BodyRead) : Option CheckErr :=
  match body with
  | BodyRead.readErr => some CheckErr.readBody
  | BodyRead.notJson => some CheckErr.deserialize
  | BodyRead.json doc =>
    match (q.run doc).head? with
    | none => some CheckErr.noResult
    | some v =>
      if goEqExpectation v expectation then none else some CheckErr.expectationFailed

/-- The `check` method of the source (lines 325-363): reject non-GET
methods, fail on request-build/transport errors, compare the status code
to `ExpectedStatus` (the source performs this comparison twice, verbatim),
and, when a query is configured, defer to `checkJSON`. -/
def check (h : HealthcheckQuery) (t : TransportOutcome) : HealthcheckResponse :=
  if h.Method ≠ "GET" then ⟨false⟩
  else
    match t with
    | TransportOutcome.fail => ⟨false⟩
    | TransportOutcome.ok resp =>
      if resp.StatusCode ≠ h.ExpectedStatus then ⟨false⟩
      else if resp.StatusCode ≠ h.ExpectedStatus then ⟨false⟩
      else
        match h.JqQuery.Query with
        | none => ⟨true⟩
        | some q =>
          match checkJSON q h.JqQuery.Expectation resp.Body with
          | some _ => ⟨false⟩
          | none => ⟨true⟩

/-- Nanosecond multiplier of a Go duration unit suffix
(`time.ParseDuration` unit map). -/
def unitNanos : String → Option Int
  | "ns" => some 1
  | "us" => some 1000
  | "µs" => some 1000
  | "μs" => some 1000
  | "ms" => some 1000000
  | "s" => some 1000000000
  | "m" => some 60000000000
  | "h" => some 3600000000000
  | _ => none

/-- Decimal value of a digit run. -/
def digitsToNat (ds : List Char) : Nat :=
  ds.foldl (fun a c => a * 10 + (c.toNat - 48)) 0

/-- One or more `<digits><unit>` components of a Go duration string, summed
in nanoseconds.  The fuel argument bounds the recursion by the input
length; each component consumes at least one character. -/
def parseGroups : Nat → List Char → Option Int
  | 0, _ => none
  | fuel + 1, cs =>
    let ds := cs.takeWhile Char.isDigit
    let rest := cs.dropWhile Char.isDigit
    if ds.isEmpty then none
    else
      let us := rest.takeWhile (fun c => ¬ c.isDigit)
      let rest2 := rest.dropWhile (fun c => ¬ c.isDigit)
      match unitNanos (String.mk us) with
      | none => none
      | some mult =>
        let v : Int := (digitsToNat ds : Int) * mult
        match rest2 with
        | [] => some v
        | _ =>
          match parseGroups fuel rest2 with
          | none => none
          | some w => some (v + w)

/-- Go `time.ParseDuration`, modelled at the interface the source consumes:
an optional leading sign, the special case `"0"`, then one or more
decimal-number-plus-unit components (`ns`, `us`, `ms`, `s`, `m`, `h`, ...)
summed in nanoseconds.  Fractional components (`"1.5s"`) and int64
overflow of astronomically long inputs are not modelled — no claim
involves them; on fraction-free inputs this follows the documented Go
grammar, in particular signed durations such as `"-5s"` parse
successfully. -/
def parseDuration (s : String) : Option Int :=
  let cs := s.toList
  let signed : Bool × List Char :=
    match cs with
    | '-' :: t => (true, t)
    | '+' :: t => (false, t)
    | _ => (false, cs)
  if signed.2 = ['0'] then some 0
  else
    match parseGroups (signed.2.length + 1) signed.2 with
    | none => none
    | some v => some (if signed.1 then -v else v)

/-- The optional `jq_query` object of the wire form (fields `query` and
`expectation`). -/
structure WireJqQuery where
  query : String
  expectation : String

/-- The JSON fields of a creation/update payload as the anonymous struct
`d` in `UnmarshalJSON` receives them.  The `id` field models an `"id"` key
a client may put in the JSON: `d` declares no such field, so decoding
never reads it. -/
structure WireFields where
  url : String
  method : String
  expected_status : Int
  frequency : String
  jq_query : Option WireJqQuery
  id : Option Int

/-- A request body as seen by `json.NewDecoder(r.Body).Decode`:
syntactically invalid JSON makes `Decode` fail before `UnmarshalJSON`
runs; otherwise `UnmarshalJSON` receives the decoded fields. -/
inductive RequestBody where
  | invalid
  | valid (fields : WireFields)

/-- The `UnmarshalJSON` method of the source (lines 280-319) applied to a
fresh (zero-valued) receiver, as both handlers do: copy `url`, `method`,
`expected_status`, parse the duration string (failure is returned), and
compile the optional query with the supplied query parser `gojqParse`
(the gojq engine is an external collaborator, so the parser is a
parameter).  The receiver's `Id` is never assigned, so it stays `0`; with
no `jq_query` the expectation likewise stays `""`. -/
def unmarshalHealthcheckQuery (gojqParse : String → Option GojqQuery)
    (fields : WireFields) : Except Unit HealthcheckQuery :=
  match parseDuration fields.frequency with
  | none => Except.error ()
  | some freq =>
    match fields.jq_query with
    | none =>
      Except.ok
        { Id := 0, Url := fields.url, Method := fields.method,
          ExpectedStatus := fields.expected_status, Frequency := freq,
          JqQuery := ⟨none, ""⟩ }
    | some wj =>
      match gojqParse wj.query with
      | none => Except.error ()
      | some q =>
        Except.ok
          { Id := 0, Url := fields.url, Method := fields.method,
            ExpectedStatus := fields.expected_status, Frequency := freq,
            JqQuery := ⟨some q, wj.expectation⟩ }

/-- Decoding a request body into a fresh `HealthcheckQuery`, as
`json.NewDecoder(r.Body).Decode(&healthcheck)` does in `handleAddJob` and
`handlePutJob`. -/
def decodeRequestBody (gojqParse : String → Option GojqQuery) :
    RequestBody → Except Unit HealthcheckQuery
  | RequestBody.invalid => Except.error ()
  | RequestBody.valid fields => unmarshalHealthcheckQuery gojqParse fields

/-- The `healthcheckJob` struct of the source.  The quit channel and the
ticker are runtime objects; the model tracks them by identity (allocation
number). -/
structure healthcheckJob where
  healthcheck : HealthcheckQuery
  quit : Nat
  ticker : Nat

/-- Association-list lookup, modelling a read of the Go map
`h.healthchecks[id]`. -/
def mapFind (m : List (Int × healthcheckJob)) (id : Int) : Option healthcheckJob :=
  (m.find? (fun e => e.1 == id)).map Prod.snd

/-- Removal of a key, modelling `delete(h.healthchecks, id)`. -/
def mapErase (m : List (Int × healthcheckJob)) (id : Int) : List (Int × healthcheckJob) :=
  m.filter (fun e => e.1 != id)

/-- Map assignment `h.healthchecks[id] = job` (insert or replace). -/
def mapInsert (m : List (Int × healthcheckJob)) (id : Int) (job : healthcheckJob) :
    List (Int × healthcheckJob) :=
  (id, job) :: mapErase m id

/-- The `HealthcheckServer` struct of the source, with the runtime
bookkeeping the claims need: allocation counters for channels and tickers
(`make(chan ...)`, `time.NewTicker`), the set of closed channels
and of stopped tickers.  The source holds no mutex — only a
`sync.WaitGroup`, which provides no mutual exclusion. -/
structure HealthcheckServer where
  healthchecks : List (Int × healthcheckJob)
  nextHealthcheckId : Int
  nextChan : Nat
  nextTicker : Nat
  closedChans : List Nat
  stoppedTickers : List Nat

/-- The `NewHealthcheckServer` constructor: empty map, zero counter. -/
def NewHealthcheckServer : HealthcheckServer :=
  { healthchecks := [], nextHealthcheckId := 0, nextChan := 0, nextTicker := 0,
    closedChans := [], stoppedTickers := [] }

/-- Two's-complement wraparound of Go's 64-bit `int`, the type behind
`healthcheckId`. -/
def wrapInt64 (x : Int) : Int :=
  (x + 2 ^ 63) % 2 ^ 64 - 2 ^ 63

/-- The `AddHealthcheck` method of the source (lines 185-198): increment
the id counter (64-bit wraparound), stamp the spec with the new id, make a
quit channel and a ticker, store the job and spawn its runner goroutine.
`time.NewTicker` panics on a non-positive interval; in that case the
handler goroutine dies after the counter increment and before the map
write, and no id is returned (`none`). -/
def AddHealthcheck (h : HealthcheckServer) (healthcheck : HealthcheckQuery) :
    HealthcheckServer × Option Int :=
  let newId := wrapInt64 (h.nextHealthcheckId + 1)
  let h1 := { h with nextHealthcheckId := newId }
  if healthcheck.Frequency ≤ 0 then (h1, none)
  else
    ({ h1 with
        nextChan := h.nextChan + 1
        nextTicker := h.nextTicker + 1
        healthchecks :=
          mapInsert h.healthchecks newId
            ⟨{ healthcheck with Id := newId }, h.nextChan, h.nextTicker⟩ },
      some newId)

/-- The `UpdateHealthcheck` method of the source (lines 200-213): unknown
id returns with no mutation; otherwise the stored spec is replaced by the
argument verbatim, the old ticker is stopped, a new ticker is made
(`time.NewTicker` panics here on a non-positive frequency — flag `true` —
with only the ticker stop having taken effect), the old quit channel is
closed, a fresh one is made and a new runner is spawned. -/
def UpdateHealthcheck (h : HealthcheckServer) (id : Int)
    (healthcheck : HealthcheckQuery) : HealthcheckServer × Bool :=
  match mapFind h.healthchecks id with
  | none => (h, false)
  | some job =>
    let h1 := { h with stoppedTickers := job.ticker :: h.stoppedTickers }
    if healthcheck.Frequency ≤ 0 then (h1, true)
    else
      ({ h1 with
          closedChans := job.quit :: h.closedChans
          nextChan := h.nextChan + 1
          nextTicker := h.nextTicker + 1
          healthchecks :=
            mapInsert h.healthchecks id ⟨healthcheck, h.nextChan, h.nextTicker⟩ },
        false)

/-- The `StopHealthcheck` method of the source (lines 215-222): unknown id
is a no-op; otherwise close the job's quit channel (signalling its runner
to stop) and remove the entry. -/
def StopHealthcheck (h : HealthcheckServer) (id : Int) : HealthcheckServer :=
  match mapFind h.healthchecks id with
  | none => h
  | some job =>
    { h with
        closedChans := job.quit :: h.closedChans
        healthchecks := mapErase h.healthchecks id }

/-- The `handleAddJob` handler (lines 117-130): decode failure yields 400
and no registry call; otherwise `AddHealthcheck` runs, 201 is written and
the decoded spec is echoed with the assigned id.  `none` as response means
the handler goroutine panicked before writing one. -/
def handleAddJob (gojqParse : String → Option GojqQuery) (h : HealthcheckServer)
    (body : RequestBody) :
    HealthcheckServer × Option (Nat × Option HealthcheckQuery) :=
  match decodeRequestBody gojqParse body with
  | Except.error _ => (h, some (400, none))
  | Except.ok healthcheck =>
    match AddHealthcheck h healthcheck with
    | (h2, none) => (h2, none)
    | (h2, some newId) => (h2, some (201, some { healthcheck with Id := newId }))

/-- The `handleGetJob` handler (lines 132-142): 404 on unknown id, else
200 with the stored spec. -/
def handleGetJob (h : HealthcheckServer) (jobId : Int) :
    Nat × Option HealthcheckQuery :=
  match mapFind h.healthchecks jobId with
  | none => (404, none)
  | some job => (200, some job.healthcheck)

/-- The `handleDeleteJob` handler (lines 144-148): stop (if present) and
answer 204 unconditionally. -/
def handleDeleteJob (h : HealthcheckServer) (jobId : Int) :
    HealthcheckServer × Nat :=
  (StopHealthcheck h jobId, 204)

/-- The `handlePutJob` handler (lines 150-163): decode failure yields 400;
otherwise `UpdateHealthcheck` runs with the decoded spec (whose `Id` is
still 0 — the handler stamps `jobId` only on the echoed copy, after the
update), 200 is written and the stamped copy echoed.  `none` as response
means the handler goroutine panicked inside the update. -/
def handlePutJob (gojqParse : String → Option GojqQuery) (h : HealthcheckServer)
    (jobId : Int) (body : RequestBody) :
    HealthcheckServer × Option (Nat × Option HealthcheckQuery) :=
  match decodeRequestBody gojqParse body with
  | Except.error _ => (h, some (400, none))
  | Except.ok healthcheck =>
    match UpdateHealthcheck h jobId healthcheck with
    | (h2, true) => (h2, none)
    | (h2, false) => (h2, some (200, some { healthcheck with Id := jobId }))

/-- A registry mutation issued by the control surface: an add (POST) with
a decoded spec, or a delete (DELETE) of an id. -/
inductive RegOp where
  | add (healthcheck : HealthcheckQuery)
  | delete (id : Int)

/-- Number of adds in a sequence of operations. -/
def numAdds : List RegOp → Nat
  | [] => 0
  | RegOp.add _ :: rest => numAdds rest + 1
  | RegOp.delete _ :: rest => numAdds rest

/-- Sequential execution of a list of registry operations. -/
def runOps (h : HealthcheckServer) : List RegOp → HealthcheckServer
  | [] => h
  | RegOp.add hc :: rest => runOps (AddHealthcheck h hc).1 rest
  | RegOp.delete id :: rest => runOps (StopHealthcheck h id) rest

/-- The ids handed out by the adds of a sequence, in order (an add whose
ticker creation panics hands out none). -/
def assignedIds (h : HealthcheckServer) : List RegOp → List Int
  | [] => []
  | RegOp.add hc :: rest =>
    (AddHealthcheck h hc).2.toList ++ assignedIds (AddHealthcheck h hc).1 rest
  | RegOp.delete id :: rest => assignedIds (StopHealthcheck h id) rest

/-! Interleaved executions.

`net/http` serves every request on its own goroutine, and
`HealthcheckServer` holds no lock (its only synchronization field is a
`sync.WaitGroup`), so the statements of two concurrently served handlers
interleave freely on the shared fields.  The two models below replay the
statements of `StopHealthcheck` and of `AddHealthcheck` at that
granularity for two concurrent callers; a schedule picks which caller
executes its next statement. -/

/-- Per-caller progress through `StopHealthcheck`: program counter
(0 = about to read the map, 1 = about to close the quit channel,
2 = about to delete the entry, 3 = returned) and the quit channel the
caller read. -/
structure StopThread where
  pc : Nat
  job : Option Nat
deriving DecidableEq

/-- Shared state touched by two concurrent `StopHealthcheck(id)` calls:
the map restricted to what they read (id → quit channel), the closed
channels, and whether the runtime panicked.  Modelled from the spec as
well as Go semantics it cites: a channel closed to signal stop cannot
safely be closed twice — a second `close` panics (spec section 9). -/
structure StopRaceState where
  healthchecks : List (Int × Nat)
  closedChans : List Nat
  t1 : StopThread
  t2 : StopThread
  panicked : Bool
deriving DecidableEq

/-- One statement of `StopHealthcheck(id)` executed by one caller. -/
def stopStep (id : Int) (shared : List (Int × Nat) × List Nat × Bool)
    (th : StopThread) : (List (Int × Nat) × List Nat × Bool) × StopThread :=
  let (m, closed, panicked) := shared
  match th.pc with
  | 0 =>
    match (m.find? (fun e => e.1 == id)).map Prod.snd with
    | none => (shared, { pc := 3, job := none })
    | some q => (shared, { pc := 1, job := some q })
  | 1 =>
    match th.job with
    | none => (shared, { th with pc := 3 })
    | some q =>
      if closed.contains q then ((m, closed, true), { th with pc := 2 })
      else ((m, q :: closed, panicked), { th with pc := 2 })
  | 2 => ((m.filter (fun e => e.1 != id), closed, panicked), { th with pc := 3 })
  | _ => (shared, th)

/-- Run a schedule (`false` = caller 1 moves, `true` = caller 2 moves) of
two concurrent `StopHealthcheck(id)` calls. -/
def runStopRace (id : Int) : List Bool → StopRaceState → StopRaceState
  | [], s => s
  | pick :: rest, s =>
    let shared := (s.healthchecks, s.closedChans, s.panicked)
    if pick then
      let (sh, th) := stopStep id shared s.t2
      runStopRace id rest
        { healthchecks := sh.1, closedChans := sh.2.1, panicked := sh.2.2,
          t1 := s.t1, t2 := th }
    else
      let (sh, th) := stopStep id shared s.t1
      runStopRace id rest
        { healthchecks := sh.1, closedChans := sh.2.1, panicked := sh.2.2,
          t1 := th, t2 := s.t2 }

/-- Initial state of the delete race: one live job with id 1 whose quit
channel is channel 0, nothing closed, both callers at their first
statement. -/
def stopRaceInit : StopRaceState :=
  { healthchecks := [(1, 0)], closedChans := [], t1 := ⟨0, none⟩,
    t2 := ⟨0, none⟩, panicked := false }

/-- Per-caller progress through `AddHealthcheck`: program counter
(0 = about to read the id counter, 1 = about to write it back
incremented — the two halves of the non-atomic `h.nextHealthcheckId++` —
2 = about to store the job and spawn its runner from the shared counter,
3 = returned) and the counter value the caller read. -/
structure AddThread where
  pc : Nat
  tmp : Int
deriving DecidableEq

/-- Shared state touched by two concurrent `AddHealthcheck` calls: the id
counter, the keys of the job map, and the ids of the runner goroutines
spawned so far. -/
structure AddRaceState where
  nextHealthcheckId : Int
  mapKeys : List Int
  runners : List Int
  t1 : AddThread
  t2 : AddThread
deriving DecidableEq

/-- One statement of `AddHealthcheck` executed by one caller. -/
def addStep (shared : Int × List Int × List Int) (th : AddThread) :
    (Int × List Int × List Int) × AddThread :=
  let (counter, keys, runners) := shared
  match th.pc with
  | 0 => (shared, { pc := 1, tmp := counter })
  | 1 => ((wrapInt64 (th.tmp + 1), keys, runners), { th with pc := 2 })
  | 2 =>
    ((counter, counter :: keys.filter (fun k => k != counter), counter :: runners),
      { th with pc := 3 })
  | _ => (shared, th)

/-- Run a schedule of two concurrent `AddHealthcheck` calls. -/
def runAddRace : List Bool → AddRaceState → AddRaceState
  | [], s => s
  | pick :: rest, s =>
    let shared := (s.nextHealthcheckId, s.mapKeys, s.runners)
    if pick then
      let (sh, th) := addStep shared s.t2
      runAddRace rest
        { nextHealthcheckId := sh.1, mapKeys := sh.2.1, runners := sh.2.2,
          t1 := s.t1, t2 := th }
    else
      let (sh, th) := addStep shared s.t1
      runAddRace rest
        { nextHealthcheckId := sh.1, mapKeys := sh.2.1, runners := sh.2.2,
          t1 := th, t2 := s.t2 }

/-- Initial state of the add race: fresh registry, both callers at their
first statement. -/
def addRaceInit : AddRaceState :=
  { nextHealthcheckId := 0, mapKeys := [], runners := [], t1 := ⟨0, 0⟩,
    t2 := ⟨0, 0⟩ }

/-! Concrete fixtures used by witnesses and counterexamples. -/

/-- A query parser that rejects everything; the concrete payloads below
carry no query, so any parser would do. -/
def gpNone : String → Option GojqQuery := fun _ => none

/-- A plain GET job spec: probe for status 200 every 30 seconds. -/
def hcGet30s : HealthcheckQuery :=
  ⟨0, "http://example.com", "GET", 200, 30000000000, ⟨none, ""⟩⟩

/-- The same job spec with a non-GET method. -/
def hcPost30s : HealthcheckQuery :=
  ⟨0, "http://example.com", "POST", 200, 30000000000, ⟨none, ""⟩⟩

/-- Wire payload decoding to `hcGet30s`. -/
def bodyGet30s : RequestBody :=
  RequestBody.valid ⟨"http://example.com", "GET", 200, "30s", none, none⟩

/-- A probe response with the expected status and a JSON object body. -/
def respOk : ProbeResponse :=
  ⟨200, BodyRead.json (Json.obj [("fact", Json.str "cats sleep a lot")])⟩

/-- A probe response with an unexpected status. -/
def resp500 : ProbeResponse :=
  ⟨500, BodyRead.json (Json.obj [("fact", Json.str "cats sleep a lot")])⟩

/-- A query evaluator returning one string result, as in the spec's
component-status example. -/
def opQuery : GojqQuery := ⟨fun _ => [Json.str "operational"]⟩

/-- A GET job with the `opQuery` structured query expecting
`"operational"`. -/
def hcJq : HealthcheckQuery :=
  ⟨0, "http://example.com", "GET", 200, 30000000000, ⟨some opQuery, "operational"⟩⟩

/-! Helper lemmas. -/

theorem goEqExpectation_eq_true (v : Json) (e : String) :
    goEqExpectation v e = true ↔ v = Json.str e := by
  cases v <;> simp [goEqExpectation]

theorem mapFind_mapErase (m : List (Int × healthcheckJob)) (id : Int) :
    mapFind (mapErase m id) id = none := by
  unfold mapFind mapErase
  rw [Option.map_eq_none', List.find?_eq_none]
  intro x hx
  simpa using List.of_mem_filter hx

theorem wrapInt64_eq_self (x : Int) (h1 : -(2 ^ 63) ≤ x) (h2 : x < 2 ^ 63) :
    wrapInt64 x = x := by
  unfold wrapInt64
  have hmod : (x + 2 ^ 63) % 2 ^ 64 = x + 2 ^ 63 :=
    Int.emod_eq_of_lt (by linarith) (by norm_num; linarith)
  rw [hmod]
  ring

theorem AddHealthcheck_nextId (h : HealthcheckServer) (hc : HealthcheckQuery) :
    (AddHealthcheck h hc).1.nextHealthcheckId = wrapInt64 (h.nextHealthcheckId + 1) := by
  unfold AddHealthcheck
  dsimp only
  split <;> rfl

theorem StopHealthcheck_nextId (h : HealthcheckServer) (id : Int) :
    (StopHealthcheck h id).nextHealthcheckId = h.nextHealthcheckId := by
  unfold StopHealthcheck
  split <;> rfl

/-! Claim C3: evaluation order of one check. -/

/-- C3: a single check evaluates in order — a non-GET method fails the
check; with GET, a transport failure fails it; with a response, a status
code differing from `ExpectedStatus` fails it; and when the status
matches and no structured query is configured, the check passes. -/
theorem check_evaluation_order (h : HealthcheckQuery) (resp : ProbeResponse) :
    (∀ t, h.Method ≠ "GET" → check h t = ⟨false⟩)
    ∧ (h.Method = "GET" → check h TransportOutcome.fail = ⟨false⟩)
    ∧ (h.Method = "GET" → resp.StatusCode ≠ h.ExpectedStatus →
        check h (TransportOutcome.ok resp) = ⟨false⟩)
    ∧ (h.Method = "GET" → resp.StatusCode = h.ExpectedStatus →
        h.JqQuery.Query = none → check h (TransportOutcome.ok resp) = ⟨true⟩) := by
  refine ⟨fun t hm => ?_, fun hm => ?_, fun hm hs => ?_, fun hm hs hq => ?_⟩ <;>
    simp [check, hm, *]

/-- Witness for C3 at concrete inputs. -/
theorem check_evaluation_order_witness :
    check hcPost30s (TransportOutcome.ok respOk) = ⟨false⟩
    ∧ check hcGet30s TransportOutcome.fail = ⟨false⟩
    ∧ check hcGet30s (TransportOutcome.ok resp500) = ⟨false⟩
    ∧ check hcGet30s (TransportOutcome.ok respOk) = ⟨true⟩ :=
  ⟨(check_evaluation_order hcPost30s respOk).1 _ (by decide),
    (check_evaluation_order hcGet30s respOk).2.1 rfl,
    (check_evaluation_order hcGet30s resp500).2.2.1 rfl (by decide),
    (check_evaluation_order hcGet30s respOk).2.2.2 rfl rfl rfl⟩

/-! Claim C4: the structured-query leg of a check. -/

/-- C4: with a structured query configured and the status matched, a
body that cannot be read or is not parseable JSON fails the check; a
query yielding zero results fails it; otherwise only the first result
decides: the check passes exactly when that result equals the expected
string. -/
theorem check_query_first_result (h : HealthcheckQuery) (q : GojqQuery)
    (resp : ProbeResponse) (hm : h.Method = "GET")
    (hq : h.JqQuery.Query = some q) (hs : resp.StatusCode = h.ExpectedStatus) :
    (resp.Body = BodyRead.readErr → check h (TransportOutcome.ok resp) = ⟨false⟩)
    ∧ (resp.Body = BodyRead.notJson → check h (TransportOutcome.ok resp) = ⟨false⟩)
    ∧ (∀ doc, resp.Body = BodyRead.json doc → q.run doc = [] →
        check h (TransportOutcome.ok resp) = ⟨false⟩)
    ∧ (∀ doc v rest, resp.Body = BodyRead.json doc → q.run doc = v :: rest →
        (check h (TransportOutcome.ok resp) = ⟨true⟩ ↔
          v = Json.str h.JqQuery.Expectation)) := by
  refine ⟨fun hb => ?_, fun hb => ?_, fun doc hb hrun => ?_, fun doc v rest hb hrun => ?_⟩
  · simp [check, hm, hs, hq, hb, checkJSON]
  · simp [check, hm, hs, hq, hb, checkJSON]
  · simp [check, hm, hs, hq, hb, checkJSON, hrun]
  · by_cases hv : v = Json.str h.JqQuery.Expectation
    · subst hv
      simp [check, hm, hs, hq, hb, checkJSON, hrun, goEqExpectation]
    · have hfalse : goEqExpectation v h.JqQuery.Expectation = false := by
        cases v <;> simp_all [goEqExpectation]
      simp [check, hm, hs, hq, hb, checkJSON, hrun, hfalse, hv]

/-- Witness for C4: the spec's component-status example, passing and
failing legs. -/
theorem check_query_first_result_witness :
    check hcJq (TransportOutcome.ok respOk) = ⟨true⟩ :=
  ((check_query_first_result hcJq opQuery respOk rfl rfl rfl).2.2.2
      (Json.obj [("fact", Json.str "cats sleep a lot")]) (Json.str "operational") []
      rfl rfl).mpr rfl

/-! Claim C1: update of an unknown id. -/

/-- C1 (evaluating the code at the failing input): a PUT of a valid body
for the unknown id 7 on a fresh registry performs no mutation — the state
comes back exactly as it was — but the control surface answers 200 with an
echoed body carrying id 7, not a not-found error. -/
theorem put_unknown_id_reports_success :
    handlePutJob gpNone NewHealthcheckServer 7 bodyGet30s
      = (NewHealthcheckServer, some (200, some { hcGet30s with Id := 7 }))
    ∧ (200 : Nat) ≠ 404 :=
  ⟨rfl, by decide⟩

/-! Claim C2: the stored id after an update. -/

/-- Update payload replacing the probe target of the job. -/
def bodyPutOther : RequestBody :=
  RequestBody.valid ⟨"http://other.example", "GET", 200, "30s", none, none⟩

/-- Registry after creating one job (which gets id 1) and then updating
it through `PUT /jobs/1`. -/
def c2State : HealthcheckServer :=
  (handlePutJob gpNone (AddHealthcheck NewHealthcheckServer hcGet30s).1 1 bodyPutOther).1

/-- C2 (evaluating the code at the failing input): the created job gets
id 1 and after the update the mapping still contains key 1 (Get answers
200), but the spec a subsequent Get returns carries 0 as its id field —
`UpdateHealthcheck` stored the decoded spec verbatim and the handler
stamps the job id only on the echoed copy, after the update. -/
theorem update_zeroes_stored_id :
    (AddHealthcheck NewHealthcheckServer hcGet30s).2 = some 1
    ∧ (handleGetJob c2State 1).1 = 200
    ∧ (handleGetJob c2State 1).2.map HealthcheckQuery.Id = some 0
    ∧ (0 : Int) ≠ 1 := by decide

/-! Claim C5: double stop through the same handle. -/

/-- C5 (evaluating the code at the failing input): two concurrent
`StopHealthcheck(1)` calls (two DELETE handlers) can both read the entry
before either removes it; both then `close` the same quit channel, and
the second close panics — the one-shot close primitive does not tolerate
redundant cancellation.  The schedule below is: caller 1 reads, caller 2
reads, caller 1 closes, caller 1 deletes the entry, caller 2 closes. -/
theorem double_stop_panics :
    (runStopRace 1 [false, true, false, false, true] stopRaceInit).panicked = true := by
  decide

/-! Claim C6: delete semantics. -/

/-- C6: a delete always answers 204 no-content; on an absent id the state
is returned unchanged, and on a present id the entry is removed from the
mapping (a lookup no longer finds it) and the job's quit channel is
closed, stopping its runner. -/
theorem delete_success_and_removal (h : HealthcheckServer) (jobId : Int) :
    (handleDeleteJob h jobId).2 = 204
    ∧ (mapFind h.healthchecks jobId = none → (handleDeleteJob h jobId).1 = h)
    ∧ (∀ job, mapFind h.healthchecks jobId = some job →
        (handleDeleteJob h jobId).1.healthchecks = mapErase h.healthchecks jobId
        ∧ mapFind (handleDeleteJob h jobId).1.healthchecks jobId = none
        ∧ (handleDeleteJob h jobId).1.closedChans = job.quit :: h.closedChans) := by
  refine ⟨rfl, fun hnone => ?_, fun job hsome => ?_⟩
  · simp [handleDeleteJob, StopHealthcheck, hnone]
  · refine ⟨?_, ?_, ?_⟩ <;>
      simp [handleDeleteJob, StopHealthcheck, hsome, mapFind_mapErase]

/-- Registry holding exactly one job, with id 1. -/
def s1 : HealthcheckServer := (AddHealthcheck NewHealthcheckServer hcGet30s).1

/-- Witness for C6: deleting the absent id 5 from a fresh registry is a
no-op, and deleting the present id 1 removes its entry; both answer
204. -/
theorem delete_success_and_removal_witness :
    (handleDeleteJob NewHealthcheckServer 5).1 = NewHealthcheckServer
    ∧ (handleDeleteJob s1 1).1.healthchecks = mapErase s1.healthchecks 1
    ∧ (handleDeleteJob s1 1).2 = 204 :=
  ⟨(delete_success_and_removal NewHealthcheckServer 5).2.1 rfl,
    ((delete_success_and_removal s1 1).2.2 ⟨{ hcGet30s with Id := 1 }, 0, 0⟩ rfl).1,
    (delete_success_and_removal s1 1).1⟩

/-! Claim C9: exclusive access to the mapping. -/

/-- C9 (evaluating the code at the failing input): `HealthcheckServer`
holds no lock, so two concurrently served POST handlers interleave inside
`AddHealthcheck`; with both reading the id counter before either writes
it back, both calls run to completion (both reach their final statement),
both pick id 1, and two runner goroutines for id 1 are spawned — there is
no exclusive access and the one-live-runner-per-id guarantee fails. -/
theorem unsynchronized_adds_duplicate_runner :
    (runAddRace [false, true, false, true, false, true] addRaceInit).runners = [1, 1]
    ∧ (runAddRace [false, true, false, true, false, true] addRaceInit).runners.count 1 = 2
    ∧ (runAddRace [false, true, false, true, false, true] addRaceInit).t1.pc = 3
    ∧ (runAddRace [false, true, false, true, false, true] addRaceInit).t2.pc = 3 := by
  decide

/-! Claim C10: the assigned id comes from the counter alone. -/

/-- Wire fields of a plain GET creation payload. -/
def wFieldsGet : WireFields :=
  ⟨"http://example.com", "GET", 200, "30s", none, none⟩

/-- C10: decoding ignores any id field of the payload — two payloads
differing only there decode identically, and the decoded spec always has
id 0 — and `AddHealthcheck` assigns the previous counter value plus one
(within int64 range and for an admissible frequency). -/
theorem add_id_from_counter (gp : String → Option GojqQuery) (fields : WireFields)
    (i j : Option Int) (h : HealthcheckServer) (hc : HealthcheckQuery)
    (hlo : -(2 ^ 63) ≤ h.nextHealthcheckId) (hhi : h.nextHealthcheckId + 1 < 2 ^ 63)
    (hfreq : 0 < hc.Frequency) :
    decodeRequestBody gp (RequestBody.valid { fields with id := i })
      = decodeRequestBody gp (RequestBody.valid { fields with id := j })
    ∧ (∀ hc0, decodeRequestBody gp (RequestBody.valid fields) = Except.ok hc0 →
        hc0.Id = 0)
    ∧ (AddHealthcheck h hc).2 = some (h.nextHealthcheckId + 1) := by
  refine ⟨rfl, fun hc0 h0 => ?_, ?_⟩
  · unfold decodeRequestBody unmarshalHealthcheckQuery at h0
    repeat' split at h0
    all_goals simp_all
    all_goals exact (congrArg HealthcheckQuery.Id h0.symm)
  · simp only [AddHealthcheck]
    rw [if_neg (not_le.mpr hfreq)]
    rw [wrapInt64_eq_self _ (by linarith) (by linarith)]

/-- Witness for C10 at concrete inputs: a payload with id 99 and one with
no id decode identically, the decoded id is 0, and a fresh registry
assigns id 0 + 1. -/
theorem add_id_from_counter_witness :
    decodeRequestBody gpNone (RequestBody.valid { wFieldsGet with id := some 99 })
      = decodeRequestBody gpNone (RequestBody.valid { wFieldsGet with id := none })
    ∧ (∀ hc0, decodeRequestBody gpNone (RequestBody.valid wFieldsGet) = Except.ok hc0 →
        hc0.Id = 0)
    ∧ (AddHealthcheck NewHealthcheckServer hcGet30s).2
      = some (NewHealthcheckServer.nextHealthcheckId + 1) :=
  add_id_from_counter gpNone wFieldsGet (some 99) none NewHealthcheckServer hcGet30s
    (by norm_num [NewHealthcheckServer]) (by norm_num [NewHealthcheckServer])
    (by norm_num [hcGet30s])

/-! Claim C8: admission at the boundary. -/

/-- C8 amended: syntactically invalid JSON, a duration string the
duration parser rejects, and a query expression the query parser rejects
are all answered 400 with the registry untouched, on creation and on
update alike; but whenever the duration parses (whatever its sign) and no
query is present, decoding succeeds verbatim — the boundary inspects
neither the method nor the sign of the duration. -/
theorem boundary_admission (gp : String → Option GojqQuery) (fields : WireFields)
    (h : HealthcheckServer) (jobId : Int) :
    handleAddJob gp h RequestBody.invalid = (h, some (400, none))
    ∧ handlePutJob gp h jobId RequestBody.invalid = (h, some (400, none))
    ∧ (parseDuration fields.frequency = none →
        handleAddJob gp h (RequestBody.valid fields) = (h, some (400, none))
        ∧ handlePutJob gp h jobId (RequestBody.valid fields) = (h, some (400, none)))
    ∧ (∀ wq, fields.jq_query = some wq → gp wq.query = none →
        handleAddJob gp h (RequestBody.valid fields) = (h, some (400, none))
        ∧ handlePutJob gp h jobId (RequestBody.valid fields) = (h, some (400, none)))
    ∧ (∀ d, parseDuration fields.frequency = some d → fields.jq_query = none →
        decodeRequestBody gp (RequestBody.valid fields)
          = Except.ok ⟨0, fields.url, fields.method, fields.expected_status, d,
              ⟨none, ""⟩⟩) := by
  refine ⟨rfl, rfl, fun hdur => ?_, fun wq hwq hgp => ?_, fun d hdur hwq => ?_⟩
  · constructor <;>
      simp [handleAddJob, handlePutJob, decodeRequestBody,
        unmarshalHealthcheckQuery, hdur]
  · cases hd : parseDuration fields.frequency <;>
      constructor <;>
        simp [handleAddJob, handlePutJob, decodeRequestBody,
          unmarshalHealthcheckQuery, hd, hwq, hgp]
  · simp [decodeRequestBody, unmarshalHealthcheckQuery, hdur, hwq]

/-- A non-GET creation payload with a negative duration. -/
def c8FieldsNeg : WireFields :=
  ⟨"http://example.com", "POST", 200, "-5s", none, none⟩

/-- A non-GET creation payload with a plain 30-second duration. -/
def c8Fields30s : WireFields :=
  ⟨"http://example.com", "POST", 200, "30s", none, none⟩

/-- C8 counterexample: a payload whose method is POST and whose duration
is the negative (but parseable) "-5s" passes decoding — the boundary does
not reject the unsupported method or the non-positive duration — and a
POST-method payload with a plain duration reaches the registry: the job
is created (201) and retrievable. -/
theorem non_get_payload_admitted :
    decodeRequestBody gpNone (RequestBody.valid c8FieldsNeg)
      = Except.ok ⟨0, "http://example.com", "POST", 200, -5000000000, ⟨none, ""⟩⟩
    ∧ (handleAddJob gpNone NewHealthcheckServer (RequestBody.valid c8Fields30s)).2
      = some (201, some ⟨1, "http://example.com", "POST", 200, 30000000000, ⟨none, ""⟩⟩)
    ∧ (handleGetJob
        (handleAddJob gpNone NewHealthcheckServer (RequestBody.valid c8Fields30s)).1
        1).1 = 200 :=
  ⟨rfl, rfl, rfl⟩

/-- Wire fields with an unparseable duration string. -/
def cFieldsBadFreq : WireFields :=
  ⟨"http://example.com", "GET", 200, "xx", none, none⟩

/-- Witness for the amended C8 at concrete inputs: a bad duration and an
invalid JSON body are both answered 400 with no mutation, while the
parseable negative duration decodes. -/
theorem boundary_admission_witness :
    handleAddJob gpNone NewHealthcheckServer (RequestBody.valid cFieldsBadFreq)
      = (NewHealthcheckServer, some (400, none))
    ∧ handlePutJob gpNone NewHealthcheckServer 1 RequestBody.invalid
      = (NewHealthcheckServer, some (400, none))
    ∧ decodeRequestBody gpNone (RequestBody.valid c8FieldsNeg)
      = Except.ok ⟨0, c8FieldsNeg.url, c8FieldsNeg.method,
          c8FieldsNeg.expected_status, -5000000000, ⟨none, ""⟩⟩ :=
  ⟨((boundary_admission gpNone cFieldsBadFreq NewHealthcheckServer 1).2.2.1 rfl).1,
    (boundary_admission gpNone cFieldsBadFreq NewHealthcheckServer 1).2.1,
    (boundary_admission gpNone c8FieldsNeg NewHealthcheckServer 1).2.2.2.2
      (-5000000000) rfl rfl⟩

/-! Claim C7: uniqueness and positivity of assigned ids. -/

theorem AddHealthcheck_assigned_cases (h : HealthcheckServer) (hc : HealthcheckQuery) :
    (AddHealthcheck h hc).2 = none
    ∨ (AddHealthcheck h hc).2 = some (wrapInt64 (h.nextHealthcheckId + 1)) := by
  simp only [AddHealthcheck]
  split
  · exact Or.inl rfl
  · exact Or.inr rfl

theorem AddHealthcheck_assigned_pos (h : HealthcheckServer) (hc : HealthcheckQuery)
    (hf : 0 < hc.Frequency) :
    (AddHealthcheck h hc).2 = some (wrapInt64 (h.nextHealthcheckId + 1)) := by
  simp only [AddHealthcheck]
  rw [if_neg (not_le.mpr hf)]

theorem runOps_append (l1 l2 : List RegOp) :
    ∀ h : HealthcheckServer, runOps h (l1 ++ l2) = runOps (runOps h l1) l2 := by
  induction l1 with
  | nil => intro h; rfl
  | cons op rest ih =>
    intro h
    cases op <;> simp [runOps, ih]

theorem assignedIds_append (l1 l2 : List RegOp) :
    ∀ h : HealthcheckServer,
      assignedIds h (l1 ++ l2)
        = assignedIds h l1 ++ assignedIds (runOps h l1) l2 := by
  induction l1 with
  | nil => intro h; rfl
  | cons op rest ih =>
    intro h
    cases op <;> simp [assignedIds, runOps, ih]

/-- Running a sequence of adds and deletes whose add count keeps the
int64 counter in range: the counter advances by exactly the number of
adds, and the assigned ids are strictly increasing and sandwiched between
the initial counter (exclusive) and the final one (inclusive). -/
theorem assignedIds_bounds (ops : List RegOp) :
    ∀ h : HealthcheckServer, 0 ≤ h.nextHealthcheckId →
      h.nextHealthcheckId + (numAdds ops : Int) ≤ 2 ^ 63 - 1 →
      (runOps h ops).nextHealthcheckId = h.nextHealthcheckId + (numAdds ops : Int)
      ∧ List.Pairwise (· < ·) (assignedIds h ops)
      ∧ ∀ i ∈ assignedIds h ops,
          h.nextHealthcheckId < i
          ∧ i ≤ h.nextHealthcheckId + (numAdds ops : Int) := by
  induction ops with
  | nil =>
    intro h h0 hb
    simp [runOps, assignedIds, numAdds]
  | cons op rest ih =>
    intro h h0 hb
    cases op with
    | add hc =>
      have hnum : (numAdds (RegOp.add hc :: rest) : Int) = (numAdds rest : Int) + 1 := by
        simp [numAdds]
      rw [hnum] at hb
      have hrest0 : (0 : Int) ≤ (numAdds rest : Int) := Int.natCast_nonneg _
      have hcnt : (AddHealthcheck h hc).1.nextHealthcheckId
          = h.nextHealthcheckId + 1 := by
        rw [AddHealthcheck_nextId, wrapInt64_eq_self _ (by linarith) (by linarith)]
      obtain ⟨ihc, ihp, ihb⟩ := ih (AddHealthcheck h hc).1 (by omega)
        (by rw [hcnt]; linarith)
      have hrun : (runOps h (RegOp.add hc :: rest)).nextHealthcheckId
          = h.nextHealthcheckId + ((numAdds rest : Int) + 1) := by
        rw [show runOps h (RegOp.add hc :: rest)
              = runOps (AddHealthcheck h hc).1 rest from rfl, ihc, hcnt]
        ring
      refine ⟨by rw [hnum, hrun], ?_, ?_⟩
      · show List.Pairwise (· < ·)
          ((AddHealthcheck h hc).2.toList ++ assignedIds (AddHealthcheck h hc).1 rest)
        rcases AddHealthcheck_assigned_cases h hc with hn | hs
        · simpa [hn] using ihp
        · rw [hs, wrapInt64_eq_self _ (by linarith) (by linarith)]
          refine List.pairwise_cons.mpr ⟨fun i hi => ?_, ihp⟩
          have := (ihb i hi).1
          rw [hcnt] at this
          linarith
      · intro i hi
        rw [hnum]
        rcases AddHealthcheck_assigned_cases h hc with hn | hs <;>
          rw [show assignedIds h (RegOp.add hc :: rest)
                = (AddHealthcheck h hc).2.toList
                  ++ assignedIds (AddHealthcheck h hc).1 rest from rfl] at hi
        · rw [hn] at hi
          simp only [Option.toList_none, List.nil_append] at hi
          obtain ⟨hgt, hle⟩ := ihb i hi
          rw [hcnt] at hgt hle
          constructor <;> linarith
        · rw [hs, wrapInt64_eq_self _ (by linarith) (by linarith)] at hi
          simp only [Option.toList_some, List.singleton_append, List.mem_cons] at hi
          rcases hi with hi | hi
          · subst hi
            constructor <;> linarith
          · obtain ⟨hgt, hle⟩ := ihb i hi
            rw [hcnt] at hgt hle
            constructor <;> linarith
    | delete id =>
      have hnum : (numAdds (RegOp.delete id :: rest) : Int) = (numAdds rest : Int) := by
        simp [numAdds]
      rw [hnum] at hb
      have hcnt := StopHealthcheck_nextId h id
      obtain ⟨ihc, ihp, ihb⟩ := ih (StopHealthcheck h id) (by omega) (by rw [hcnt]; linarith)
      refine ⟨?_, ihp, ?_⟩
      · rw [hnum, show runOps h (RegOp.delete id :: rest)
            = runOps (StopHealthcheck h id) rest from rfl, ihc, hcnt]
      · intro i hi
        rw [hnum]
        obtain ⟨hgt, hle⟩ := ihb i hi
        rw [hcnt] at hgt hle
        exact ⟨hgt, hle⟩

/-- C7 amended: in every sequence of Add and Delete operations starting
from a fresh registry in which the number of Adds is at most 2^63 - 1
(so the int64 id counter cannot overflow), every id assigned by Add is a
positive integer distinct from every other assigned id — ids freed by
Delete are never handed out again. -/
theorem assigned_ids_positive_distinct (ops : List RegOp)
    (hn : (numAdds ops : Int) ≤ 2 ^ 63 - 1) :
    (assignedIds NewHealthcheckServer ops).Nodup
    ∧ ∀ i ∈ assignedIds NewHealthcheckServer ops, 0 < i := by
  obtain ⟨-, hpw, hbd⟩ := assignedIds_bounds ops NewHealthcheckServer
    (by norm_num [NewHealthcheckServer]) (by simpa [NewHealthcheckServer] using hn)
  refine ⟨List.Pairwise.imp (fun hab => ne_of_lt hab) hpw, fun i hi => ?_⟩
  have := (hbd i hi).1
  simpa [NewHealthcheckServer] using this

/-- Witness for the amended C7: the sequence add, delete 1, add assigns
the distinct positive ids 1 and 2. -/
theorem assigned_ids_positive_distinct_witness :
    (assignedIds NewHealthcheckServer
        [RegOp.add hcGet30s, RegOp.delete 1, RegOp.add hcGet30s]).Nodup
    ∧ ∀ i ∈ assignedIds NewHealthcheckServer
        [RegOp.add hcGet30s, RegOp.delete 1, RegOp.add hcGet30s], 0 < i :=
  assigned_ids_positive_distinct _ (by norm_num [numAdds])

theorem numAdds_replicate (n : Nat) (hc : HealthcheckQuery) :
    numAdds (List.replicate n (RegOp.add hc)) = n := by
  induction n with
  | zero => rfl
  | succ k ih => simp [List.replicate_succ, numAdds, ih]

theorem assignedIds_single_add (h : HealthcheckServer) (hc : HealthcheckQuery)
    (hf : 0 < hc.Frequency) :
    assignedIds h [RegOp.add hc] = [wrapInt64 (h.nextHealthcheckId + 1)] := by
  show (AddHealthcheck h hc).2.toList ++ assignedIds (AddHealthcheck h hc).1 [] = _
  rw [AddHealthcheck_assigned_pos h hc hf]
  rfl

theorem counter_after_replicate (n : Nat) (hc : HealthcheckQuery)
    (hn : (n : Int) ≤ 2 ^ 63 - 1) :
    (runOps NewHealthcheckServer (List.replicate n (RegOp.add hc))).nextHealthcheckId
      = (n : Int) := by
  obtain ⟨hcnt, -, -⟩ := assignedIds_bounds (List.replicate n (RegOp.add hc))
    NewHealthcheckServer (by norm_num [NewHealthcheckServer])
    (by simpa [NewHealthcheckServer, numAdds_replicate] using hn)
  simpa [NewHealthcheckServer, numAdds_replicate] using hcnt

/-- C7 counterexample: the id counter is a 64-bit integer, so after 2^63
adds from a fresh registry it overflows: the last id handed out by Add is
-2^63, which is not a positive integer. -/
theorem id_counter_overflows :
    (assignedIds NewHealthcheckServer
        (List.replicate (2 ^ 63) (RegOp.add hcGet30s))).getLast?
      = some (-(2 ^ 63))
    ∧ ¬ (0 < (-(2 ^ 63) : Int)) := by
  constructor
  · have hsplit : (2 : Nat) ^ 63 = 9223372036854775807 + 1 := by norm_num
    rw [hsplit, List.replicate_succ', assignedIds_append]
    rw [assignedIds_single_add _ _ (by norm_num [hcGet30s])]
    rw [counter_after_replicate 9223372036854775807 hcGet30s (by norm_num)]
    have hwrap : wrapInt64 (((9223372036854775807 : Nat) : Int) + 1) = -(2 ^ 63) := by
      norm_num [wrapInt64]
    rw [hwrap]
    exact List.getLast?_concat _
  · norm_num

end UptimeChecker
